import Mathlib

/-
Verification of scripts/summarize.py (Mycelium benchmark report builder).

The script is shallowly embedded: JSON values become the inductive `JVal`
(JSON numbers parsed by Python to int resp. float are `jint` resp. `jnum`,
with floats idealised as rationals), Python dicts become association lists,
and every fallible Python operation becomes an `Option`-valued function
whose `none` stands for a raised exception.
-/

set_option autoImplicit false

namespace Mycelium

/-- A JSON value, as produced by Python json.load: `jint` for integer
literals, `jnum` for floating-point literals (idealised as rationals). -/
inductive JVal where
  | jnull : JVal
  | jbool : Bool → JVal
  | jint : Int → JVal
  | jnum : Rat → JVal
  | jstr : String → JVal
  | jarr : List JVal → JVal
  | jobj : List (String × JVal) → JVal

/-- First-match association-list lookup: models Python dict access on the
JSON objects read by the script (file names are unique, so first match and
last-write-wins coincide). -/
def lookupA {β : Type} (k : String) : List (String × β) → Option β
  | [] => none
  | (k', v) :: rest => if k' = k then some v else lookupA k rest

/-- Embeds the function get of scripts/summarize.py (lines 32-38): walk the
keys through nested dicts, substituting an empty dict for a missing key,
returning the string sentinel on a non-dict, and normalising a final empty
dict to the sentinel. -/
def get (d : JVal) : List String → JVal
  | [] => match d with
    | .jobj [] => .jstr "N/A"
    | _ => d
  | k :: ks => match d with
    | .jobj fs => get ((lookupA k fs).getD (.jobj [])) ks
    | _ => .jstr "N/A"

/-! ### Numeric conversions (Python float(), int()) -/

/-- Value of a decimal digit string. -/
def natOfDigits (l : List Char) : Nat :=
  l.foldl (fun a c => a * 10 + (c.toNat - 48)) 0

/-- The whitespace stripped by the Python str.strip() default (ASCII part). -/
def isSpaceChar (c : Char) : Bool :=
  c = ' ' ∨ c = '\t' ∨ c = '\n' ∨ c = '\r' ∨ c = '\x0b' ∨ c = '\x0c'

/-- Models Python str.strip() with no argument. -/
def pyStrip (s : String) : List Char :=
  ((s.toList.dropWhile isSpaceChar).reverse.dropWhile isSpaceChar).reverse

/-- Parse an unsigned decimal mantissa: digits, optionally a point and more
digits; at least one digit overall. Returns numerator, denominator (a power
of ten) and the rest of the input. -/
def parseMant (cs : List Char) : Option (Nat × Nat × List Char) :=
  let ip := cs.takeWhile Char.isDigit
  let r1 := cs.dropWhile Char.isDigit
  match r1 with
  | '.' :: r2 =>
      let fp := r2.takeWhile Char.isDigit
      let r3 := r2.dropWhile Char.isDigit
      if ip.isEmpty && fp.isEmpty then none
      else some (natOfDigits ip * 10 ^ fp.length + natOfDigits fp, 10 ^ fp.length, r3)
  | _ => if ip.isEmpty then none else some (natOfDigits ip, 1, r1)

/-- Parse an optional exponent part following the mantissa; the input must
be consumed completely. The exponent scales numerator or denominator. -/
def parseExpPart (n d : Nat) : List Char → Option (Nat × Nat)
  | [] => some (n, d)
  | c :: rest =>
      if c = 'e' ∨ c = 'E' then
        let neg : Bool := match rest with
          | '-' :: _ => true
          | _ => false
        let r2 : List Char := match rest with
          | '+' :: t => t
          | '-' :: t => t
          | t => t
        let ds := r2.takeWhile Char.isDigit
        let r3 := r2.dropWhile Char.isDigit
        if ds.isEmpty ∨ ¬ r3.isEmpty then none
        else some (if neg then (n, d * 10 ^ natOfDigits ds)
                   else (n * 10 ^ natOfDigits ds, d))
      else none

/-- Unsigned decimal literal with optional exponent, as numerator and
denominator. -/
def parseUnsignedFloat (cs : List Char) : Option (Nat × Nat) :=
  (parseMant cs).bind fun p => parseExpPart p.1 p.2.1 p.2.2

/-- Models the Python builtin float() applied to a string: surrounding
whitespace stripped, optional sign, decimal literal with optional exponent.
(The special forms inf/nan and digit-group underscores are not modelled.) -/
def parseFloat? (s : String) : Option Rat :=
  match pyStrip s with
  | '+' :: t => (parseUnsignedFloat t).map fun p => mkRat (p.1 : Int) p.2
  | '-' :: t => (parseUnsignedFloat t).map fun p => mkRat (-(p.1 : Int)) p.2
  | t => (parseUnsignedFloat t).map fun p => mkRat (p.1 : Int) p.2

/-- Models the Python builtin int() applied to a string: stripped, optional
sign, decimal digits only. -/
def parseInt? (s : String) : Option Int :=
  let core : List Char → Option Int := fun cs =>
    if cs.isEmpty ∨ ¬ cs.all Char.isDigit then none
    else some (natOfDigits cs : Int)
  match pyStrip s with
  | '+' :: t => core t
  | '-' :: t => (core t).map Neg.neg
  | t => core t

/-- Truncation toward zero, as the Python int() conversion of a float
(rationals are stored with positive denominator). -/
def ratTrunc (q : Rat) : Int :=
  if q.num < 0 then -((q.num.natAbs / q.den : Nat) : Int)
  else ((q.num.natAbs / q.den : Nat) : Int)

/-- Models Python float(v) on a JSON value: numbers and bools convert,
numeric strings parse, everything else raises (`none`). -/
def pyFloat? : JVal → Option Rat
  | .jint n => some (n : Rat)
  | .jnum q => some q
  | .jbool b => some (if b then 1 else 0)
  | .jstr s => parseFloat? s
  | _ => none

/-- Models Python int(v) on a JSON value. -/
def pyInt? : JVal → Option Int
  | .jint n => some n
  | .jnum q => some (ratTrunc q)
  | .jbool b => some (if b then 1 else 0)
  | .jstr s => parseInt? s
  | _ => none

/-! ### Number rendering -/

/-- Round the fraction n/d (d positive) half to even, as Python string
formatting of numbers does (idealised to act on the exact value). -/
def roundHalfEven (n d : Nat) : Nat :=
  let f := n / d
  let r2 := 2 * (n % d)
  if r2 < d then f
  else if d < r2 then f + 1
  else if f % 2 = 0 then f else f + 1

/-- Left-pad a string with zeros to the given width. -/
def padZeros (w : Nat) (s : String) : String :=
  String.mk (List.replicate (w - s.length) '0') ++ s

/-- Fixed-point rendering with `prec` fractional digits: models the Python
format specification .4f / .1f on our idealised floats, computing on the
stored numerator and (positive) denominator. -/
def fmtFixed (prec : Nat) (q : Rat) : String :=
  let n := roundHalfEven (q.num.natAbs * 10 ^ prec) q.den
  (if q.num < 0 then "-" else "") ++ toString (n / 10 ^ prec) ++
    (if prec = 0 then "" else "." ++ padZeros prec (toString (n % 10 ^ prec)))

/-- Group a reversed digit list into blocks of three. -/
def chunk3 : List Char → List (List Char)
  | a :: b :: c :: d :: rest => [a, b, c] :: chunk3 (d :: rest)
  | l => [l]

/-- Thousands grouping of a natural number, as the Python format
specification with a comma applied to a nonnegative int. -/
def fmtThousandsNat (n : Nat) : String :=
  String.mk ((List.intersperse [','] (chunk3 (toString n).toList.reverse)).flatten.reverse)

/-- Thousands grouping of an int (comma format specification). -/
def fmtThousandsInt (n : Int) : String :=
  if n < 0 then "-" ++ fmtThousandsNat (-n).toNat else fmtThousandsNat n.toNat

/-- Decimal digits of the fractional part num/den (0 ≤ num < den), with a
fuel bound; Python floats always terminate well within the bound. -/
def fracDigits : Nat → Nat → Nat → List Char
  | 0, _, _ => []
  | _ + 1, 0, _ => []
  | fuel + 1, num, den =>
      let n10 := num * 10
      Char.ofNat (48 + n10 / den) :: fracDigits fuel (n10 % den) den

/-- Fractional digits of the remainder rem/den, at least the single digit 0. -/
def fracPartDigits (rem den : Nat) : String :=
  let ds := fracDigits 32 rem den
  if ds.isEmpty then "0" else String.mk ds

/-- Rendering of an idealised float, as Python str()/repr(): integer part,
point, fractional digits (2.0 renders as 2.0). -/
def fmtFloatRepr (q : Rat) : String :=
  (if q.num < 0 then "-" else "") ++ toString (q.num.natAbs / q.den) ++ "." ++
    fracPartDigits (q.num.natAbs % q.den) q.den

/-- Thousands-grouped rendering of an idealised float (comma format
specification on a float groups the integer part and keeps the point). -/
def fmtThousandsFloat (q : Rat) : String :=
  (if q.num < 0 then "-" else "") ++ fmtThousandsNat (q.num.natAbs / q.den) ++ "." ++
    fracPartDigits (q.num.natAbs % q.den) q.den

/-! ### The three field formatters (lines 41-65) -/

/-- Embeds fmt_cost (lines 41-45): dollar sign and 4 fixed decimals, or the
sentinel when float() raises. -/
def fmt_cost (v : JVal) : String :=
  match pyFloat? v with
  | some q => "$" ++ fmtFixed 4 q
  | none => "N/A"

/-- Embeds fmt_time (lines 48-52): milliseconds to seconds with 1 decimal,
or the sentinel when float() raises. -/
def fmt_time (v : JVal) : String :=
  match pyFloat? v with
  | some q => fmtFixed 1 (q / 1000) ++ "s"
  | none => "N/A"

/-- Models the Python + operator on JSON-derived values: numeric addition
(bools count as 0/1), string and list concatenation; `none` is TypeError. -/
def pyAdd : JVal → JVal → Option JVal
  | .jint a, .jint b => some (.jint (a + b))
  | .jint a, .jnum b => some (.jnum ((a : Rat) + b))
  | .jnum a, .jint b => some (.jnum (a + (b : Rat)))
  | .jnum a, .jnum b => some (.jnum (a + b))
  | .jbool a, .jint b => some (.jint ((if a then 1 else 0) + b))
  | .jint a, .jbool b => some (.jint (a + (if b then 1 else 0)))
  | .jbool a, .jbool b => some (.jint ((if a then 1 else 0) + (if b then 1 else 0)))
  | .jbool a, .jnum b => some (.jnum ((if a then 1 else 0) + b))
  | .jnum a, .jbool b => some (.jnum (a + (if b then 1 else 0)))
  | .jstr a, .jstr b => some (.jstr (a ++ b))
  | .jarr a, .jarr b => some (.jarr (a ++ b))
  | _, _ => none

/-- One usage sub-count: usage.get(key, 0). -/
def usageCount (us : List (String × JVal)) (k : String) : JVal :=
  (lookupA k us).getD (.jint 0)

/-- The total computed inside fmt_tokens (lines 57-62) and inside the chart
collection (lines 185-189): d.get("usage", default empty dict), the four
sub-counts with default 0, and their Python sum; `none` is a raised
AttributeError (non-dict receiver) or TypeError (unsummable values). -/
def tokensTotal? (d : JVal) : Option JVal :=
  match d with
  | .jobj fs =>
      match (lookupA "usage" fs).getD (.jobj []) with
      | .jobj us =>
          let inp := usageCount us "input_tokens"
          let cr := usageCount us "cache_read_input_tokens"
          let cc := usageCount us "cache_creation_input_tokens"
          let out := usageCount us "output_tokens"
          (pyAdd inp cr).bind fun t1 => (pyAdd t1 cc).bind fun t2 => pyAdd t2 out
      | _ => none
  | _ => none

/-- Embeds fmt_tokens (lines 55-65): the comma format specification renders
int and float totals and raises on a str or list total (a bool total cannot
arise from three additions), and every raised exception yields the sentinel. -/
def fmt_tokens (d : JVal) : String :=
  match tokensTotal? d with
  | some (.jint n) => fmtThousandsInt n
  | some (.jnum q) => fmtThousandsFloat q
  | some _ => "N/A"
  | none => "N/A"

/-! ### Python str() rendering (used by f-string interpolation) -/

mutual
/-- Models Python repr() on JSON-derived values (string escaping inside
repr is not modelled). -/
def pyRepr : JVal → String
  | .jnull => "None"
  | .jbool b => if b then "True" else "False"
  | .jint n => toString n
  | .jnum q => fmtFloatRepr q
  | .jstr s => "\x27" ++ s ++ "\x27"
  | .jarr xs => "[" ++ pyReprList xs ++ "]"
  | .jobj fs => "\x7b" ++ pyReprFields fs ++ "\x7d"

/-- Comma-separated repr of list elements. -/
def pyReprList : List JVal → String
  | [] => ""
  | [x] => pyRepr x
  | x :: y :: xs => pyRepr x ++ ", " ++ pyReprList (y :: xs)

/-- Comma-separated repr of dict entries. -/
def pyReprFields : List (String × JVal) → String
  | [] => ""
  | [(k, v)] => "\x27" ++ k ++ "\x27: " ++ pyRepr v
  | (k, v) :: f :: fs => "\x27" ++ k ++ "\x27: " ++ pyRepr v ++ ", " ++ pyReprFields (f :: fs)
end

/-- Models Python str(), as applied by f-string interpolation: bare strings
print without quotes, everything else as repr. -/
def pyStr : JVal → String
  | .jstr s => s
  | v => pyRepr v

/-- Models the Python str.title() method on ASCII text: a letter following
a non-letter is uppercased, a letter following a letter is lowercased. -/
def pyTitleAux : List Char → Bool → List Char
  | [], _ => []
  | c :: cs, prevAlpha =>
      (if c.isAlpha then (if prevAlpha then c.toLower else c.toUpper) else c) ::
        pyTitleAux cs c.isAlpha

def pyTitle (s : String) : String := String.mk (pyTitleAux s.toList false)

/-! ### Metadata (lines 12-17) and result loading (lines 20-29) -/

/-- The metadata read from prompts.json: meta.models, the prompt labels and
meta.target of lines 15-17. Labels appear only inside f-strings, which
stringify them, so they are stored already stringified; models must end up
as strings for the later .title() calls. -/
structure Meta where
  models : List String
  labels : List String
  target : JVal

/-- The models the loop of line 75 iterates, each of which line 76 calls
.title() on: a JSON array completes only when every element is a string;
iterating a string yields its one-character strings; iterating an object
yields its (string) keys; every other value raises when iterated, and a
non-string element raises at .title() — both abort the script before the
summary is written (`none`). -/
def modelNames : JVal → Option (List String)
  | .jarr xs => xs.mapM fun v => match v with
      | .jstr s => some s
      | _ => none
  | .jstr s => some (s.toList.map fun c => String.mk [c])
  | .jobj fs => some (fs.map Prod.fst)
  | _ => none

/-- One element of the comprehension on line 16: p["label"], a KeyError
when the key is absent and a TypeError when p is not a mapping; the label
value itself may be anything and is stringified at every later f-string
use, so it is stored as its str() form. -/
def promptLabel : JVal → Option String
  | .jobj fs => (lookupA "label" fs).map pyStr
  | _ => none

/-- The label list of line 16: iterating a JSON array visits its elements;
iterating a string or an object visits one-character strings resp. keys,
which are not subscriptable by "label", so only the empty ones complete
(with no prompts); other values cannot be iterated. -/
def promptLabels : JVal → Option (List String)
  | .jarr xs => xs.mapM promptLabel
  | .jstr s => if s.isEmpty then some [] else none
  | .jobj fs => if fs.isEmpty then some [] else none
  | _ => none

/-- The region where the script runs to completion, as a function of the
parsed prompts.json: lines 15-17 raise a KeyError for a missing key and a
TypeError when meta is not a mapping or the prompts value cannot be turned
into labels, and lines 75-76/130 raise when the models value cannot be
iterated into strings; `none` is the propagated failure (no summary is
written), covering exactly these shapes. -/
def metaOfJson : JVal → Option Meta
  | .jobj fs => do
      let ms ← lookupA "models" fs
      let ps ← lookupA "prompts" fs
      let tg ← lookupA "target" fs
      let models ← modelNames ms
      let labels ← promptLabels ps
      some ⟨models, labels, tg⟩
  | _ => none

/-- The stored key of line 22: os.path.basename(f).replace(".json", "")
removes every occurrence of the substring .json, scanning left to right. -/
def replaceAllJson : List Char → List Char
  | '.' :: 'j' :: 's' :: 'o' :: 'n' :: rest => replaceAllJson rest
  | c :: rest => c :: replaceAllJson rest
  | [] => []

def normalizeName (s : String) : String := String.mk (replaceAllJson s.toList)

/-- Embeds the result-collection loop (lines 20-29): every .json file enters
the results mapping under its file name with every .json occurrence removed
(line 22), except the one normalising to prompts; a file whose parse failed
(`none`) is replaced by an empty record. -/
def loadResults (files : List (String × Option JVal)) : List (String × JVal) :=
  files.filterMap fun f =>
    let name := normalizeName f.1
    if name = "prompts" then none else some (name, f.2.getD (.jobj []))

/-- results.get(key, default empty dict), as on lines 93-94 and 171. -/
def resolve (results : List (String × JVal)) : String → JVal :=
  fun k => (lookupA k results).getD (.jobj [])

/-! ### Markdown rendering (lines 68-151) -/

/-- The f-string field number idx+1 with format 02d (line 89). -/
def fmt02 (n : Nat) : String := if n < 10 then "0" ++ toString n else toString n

/-- The composite trial key of lines 90-91 and 170. -/
def compKey (idx : Nat) (label model mode : String) : String :=
  fmt02 (idx + 1) ++ "-" ++ label ++ "-" ++ model ++ "-" ++ mode

def tokensCell (d : JVal) : String := fmt_tokens d

def costCell (d : JVal) : String := fmt_cost (get d ["total_cost_usd"])

def timeCell (d : JVal) : String := fmt_time (get d ["duration_ms"])

def turnsCell (d : JVal) : String := pyStr (get d ["num_turns"])

/-- The four table cells of a trial record, in source column order. -/
def rowCells (results : List (String × JVal)) (key : String) :
    String × String × String × String :=
  let d := resolve results key
  (tokensCell d, costCell d, timeCell d, turnsCell d)

/-- The table row of lines 108-114. -/
def rowLine (idx : Nat) (label : String) (dm dn : JVal) : String :=
  "| " ++ toString (idx + 1) ++ " | " ++ label ++ " | " ++ tokensCell dm ++ " | " ++
    tokensCell dn ++ " | " ++ costCell dm ++ " | " ++ costCell dn ++ " | " ++
    timeCell dm ++ " | " ++ timeCell dn ++ " | " ++ turnsCell dm ++ " | " ++
    turnsCell dn ++ " |"

/-- The per-model table body: one row per prompt, in metadata order
(loop of lines 88-114). `res` is the lookup function of the results dict. -/
def tableRows (res : String → JVal) (labels : List String) (model : String) : List String :=
  labels.enum.map fun p =>
    rowLine p.1 p.2 (res (compKey p.1 p.2 model "with-mcp"))
      (res (compKey p.1 p.2 model "without-mcp"))

/-- float(get(d, "total_cost_usd")) with exceptions contributing 0, as in
the accumulations of lines 99-106. -/
def costContribution (d : JVal) : Rat :=
  (pyFloat? (get d ["total_cost_usd"])).getD 0

/-- The running per-model cost total of lines 85-106. -/
def totalCost (res : String → JVal) (labels : List String) (model mode : String) : Rat :=
  labels.enum.foldl
    (fun acc p => acc + costContribution (res (compKey p.1 p.2 model mode))) 0

/-- The per-model total line of lines 117-119. -/
def totalLine (res : String → JVal) (labels : List String) (model : String) : String :=
  "**Total cost:** MCP = $" ++ fmtFixed 4 (totalCost res labels model "with-mcp") ++
    ", No-MCP = $" ++ fmtFixed 4 (totalCost res labels model "without-mcp")

def tableHeaderA : String :=
  "| # | Prompt | MCP Tokens | No-MCP Tokens | MCP Cost | No-MCP Cost | MCP Time | No-MCP Time | MCP Turns | No-MCP Turns |"

def tableHeaderB : String :=
  "|---|--------|-----------|--------------|----------|------------|----------|------------|-----------|-------------|"

/-- The per-model section of lines 75-120. -/
def modelSection (res : String → JVal) (labels : List String) (model : String) : List String :=
  ["## " ++ pyTitle model, "", tableHeaderA, tableHeaderB] ++
    tableRows res labels model ++ ["", totalLine res labels model, ""]

/-- Reading one transcript file (lines 134-139): content stripped, the
sentinel when the file is absent. -/
def transcriptOf (txts : List (String × String)) (fname : String) : String :=
  match lookupA fname txts with
  | some s => String.mk (pyStrip s)
  | none => "N/A"

/-- One collapsible transcript block (lines 141-147). -/
def answerBlock (txts : List (String × String)) (base mode tag : String) : List String :=
  ["<details><summary>" ++ tag ++ "</summary>", "",
    transcriptOf txts (base ++ "-" ++ mode ++ ".txt"), "", "</details>", ""]

/-- One model-prompt answer subsection (lines 128-147). -/
def answerSubsection (txts : List (String × String)) (model : String) (p : Nat × String) :
    List String :=
  ["### " ++ pyTitle model ++ " - " ++ p.2, ""] ++
    answerBlock txts (fmt02 (p.1 + 1) ++ "-" ++ p.2 ++ "-" ++ model) "with-mcp" "WITH MCP" ++
    answerBlock txts (fmt02 (p.1 + 1) ++ "-" ++ p.2 ++ "-" ++ model) "without-mcp" "WITHOUT MCP"

/-- The complete list `lines` of lines 68-147: header, one section per
model, then the answer comparison. `res` is the results lookup. -/
def buildLines (runDirBase : String) (meta : Meta) (res : String → JVal)
    (txts : List (String × String)) : List String :=
  ["# Mycelium MCP Benchmark Results", "", "**Date:** " ++ runDirBase,
    "**Target:** " ++ pyStr meta.target, ""] ++
  (meta.models.flatMap fun m => modelSection res meta.labels m) ++
  ["---", "", "## Answer Comparison", ""] ++
  (meta.models.flatMap fun m => meta.labels.enum.flatMap fun p => answerSubsection txts m p)

/-- The summary.md content written on lines 150-151. -/
def summaryContent (runDirBase : String) (meta : Meta) (results : List (String × JVal))
    (txts : List (String × String)) : String :=
  String.intercalate "\n" (buildLines runDirBase meta (resolve results) txts)

/-- The whole report generation: prompts.json absent or unparsable (`none`)
or structurally invalid propagates fatally; otherwise the summary content is
produced from the loaded results, parse failures of individual files
degrading to empty records. -/
def summarize (runDirBase : String) (promptsFile : Option JVal)
    (files : List (String × Option JVal)) (txts : List (String × String)) : Option String :=
  (promptsFile.bind metaOfJson).map fun meta =>
    summaryContent runDirBase meta (loadResults files) txts

/-! ### Chart averaging (lines 162-215) -/

inductive Metric where
  | cost : Metric
  | time : Metric
  | turns : Metric
  | tokens : Metric

/-- The per-record metric extraction of lines 172-192: the value appended
to the metric list when the try body succeeds, `none` when it raises and
the record is skipped. -/
def metricExtract : Metric → JVal → Option JVal
  | .cost, d => (pyFloat? (get d ["total_cost_usd"])).map .jnum
  | .time, d => (pyFloat? (get d ["duration_ms"])).map fun q => .jnum (q / 1000)
  | .turns, d => (pyInt? (get d ["num_turns"])).map .jint
  | .tokens, d => tokensTotal? d

/-- The metric value list metrics[model][mode][metric] built by the loop of
lines 164-192, in prompt order. -/
def metricValues (res : String → JVal) (labels : List String) (model mode : String)
    (metric : Metric) : List JVal :=
  labels.enum.filterMap fun p => metricExtract metric (res (compKey p.1 p.2 model mode))

/-- Models Python sum() over the collected metric values (start value
int 0); `none` is a raised TypeError. -/
def pySum (vals : List JVal) : Option JVal :=
  vals.foldl (fun acc v => acc.bind fun a => pyAdd a v) (some (.jint 0))

def numQ? : JVal → Option Rat
  | .jint n => some (n : Rat)
  | .jnum q => some q
  | .jbool b => some (if b then 1 else 0)
  | _ => none

/-- Models Python true division on numbers (always a float result). -/
def pyDiv (a b : JVal) : Option JVal :=
  match numQ? a, numQ? b with
  | some x, some y => if y = 0 then none else some (.jnum (x / y))
  | _, _ => none

/-- Embeds safe_avg (lines 194-195): int 0 on an empty list, otherwise
sum divided by length. -/
def safe_avg (vals : List JVal) : Option JVal :=
  if vals.isEmpty then some (.jint 0)
  else (pySum vals).bind fun s => pyDiv s (.jint (vals.length : Int))

/-- Every key under which the report can look a result up: the composite
keys of lines 90-91/170, over all models, prompts and modes. -/
def compositeKeys (meta : Meta) : List String :=
  meta.models.flatMap fun m => meta.labels.enum.flatMap fun p =>
    [compKey p.1 p.2 m "with-mcp", compKey p.1 p.2 m "without-mcp"]

/-! ### Specification-side definitions (for refinement statements) -/

/-- Modelled from the spec wording for the accessor: the traversal fails the
moment a key is missing or the traversed value is not a mapping, and
otherwise yields the traversed value. -/
def specTraverse : JVal → List String → Option JVal
  | d, [] => some d
  | .jobj fs, k :: ks => match lookupA k fs with
      | some v => specTraverse v ks
      | none => none
  | _, _ :: _ => none

/-- Spec-side normalisation: a failed traversal and an empty-mapping result
both become the sentinel. -/
def sentinelize : Option JVal → JVal
  | none => .jstr "N/A"
  | some (.jobj []) => .jstr "N/A"
  | some v => v

/-- Whether a value is a mapping (a Python dict after json.load). -/
def isObj : JVal → Bool
  | .jobj _ => true
  | _ => false

def isNumericJ : JVal → Bool
  | .jint _ => true
  | .jnum _ => true
  | _ => false

/-- The rational value of a numeric JVal (0 on non-numbers). -/
def numQ : JVal → Rat
  | .jint n => (n : Rat)
  | .jnum q => q
  | _ => 0

/-! ### Theorems -/

theorem get_emptyObj (ks : List String) : get (.jobj []) ks = .jstr "N/A" := by
  induction ks with
  | nil => rfl
  | cons k ks ih => simpa [get, lookupA] using ih

/-- C6: the generic nested-field accessor returns the sentinel as soon as a
key in the chain is missing or the traversed value is not a mapping, returns
the sentinel when the final traversed result is an empty mapping, and
otherwise returns the traversed value unchanged. -/
theorem accessor_sentinel_spec (d : JVal) (ks : List String) :
    get d ks = sentinelize (specTraverse d ks) := by
  induction ks generalizing d with
  | nil =>
      cases d with
      | jobj fs => cases fs <;> rfl
      | jnull => rfl
      | jbool b => rfl
      | jint n => rfl
      | jnum q => rfl
      | jstr s => rfl
      | jarr xs => rfl
  | cons k ks ih =>
      cases d with
      | jobj fs =>
          cases h : lookupA k fs with
          | none => simp [get, specTraverse, h, sentinelize, get_emptyObj]
          | some v => simpa [get, specTraverse, h] using ih v
      | jnull => rfl
      | jbool b => rfl
      | jint n => rfl
      | jnum q => rfl
      | jstr s => rfl
      | jarr xs => rfl

/-- C8: each of the three field formatters is total over every shape of
input value: it returns either a formatted value (exactly when the
underlying conversion succeeds) or the sentinel, never anything else. -/
theorem formatters_total :
    (∀ v : JVal, (∃ q, pyFloat? v = some q ∧ fmt_cost v = "$" ++ fmtFixed 4 q) ∨
      (pyFloat? v = none ∧ fmt_cost v = "N/A")) ∧
    (∀ v : JVal, (∃ q, pyFloat? v = some q ∧ fmt_time v = fmtFixed 1 (q / 1000) ++ "s") ∨
      (pyFloat? v = none ∧ fmt_time v = "N/A")) ∧
    (∀ v : JVal, (∃ n, tokensTotal? v = some (.jint n) ∧ fmt_tokens v = fmtThousandsInt n) ∨
      (∃ q, tokensTotal? v = some (.jnum q) ∧ fmt_tokens v = fmtThousandsFloat q) ∨
      fmt_tokens v = "N/A") := by
  refine ⟨fun v => ?_, fun v => ?_, fun v => ?_⟩
  · cases h : pyFloat? v with
    | none => exact Or.inr ⟨rfl, by simp [fmt_cost, h]⟩
    | some q => exact Or.inl ⟨q, rfl, by simp [fmt_cost, h]⟩
  · cases h : pyFloat? v with
    | none => exact Or.inr ⟨rfl, by simp [fmt_time, h]⟩
    | some q => exact Or.inl ⟨q, rfl, by simp [fmt_time, h]⟩
  · cases h : tokensTotal? v with
    | none => exact Or.inr (Or.inr (by simp [fmt_tokens, h]))
    | some t =>
        cases t with
        | jint n => exact Or.inl ⟨n, rfl, by simp [fmt_tokens, h]⟩
        | jnum q => exact Or.inr (Or.inl ⟨q, rfl, by simp [fmt_tokens, h]⟩)
        | jnull => exact Or.inr (Or.inr (by simp [fmt_tokens, h]))
        | jbool b => exact Or.inr (Or.inr (by simp [fmt_tokens, h]))
        | jstr s => exact Or.inr (Or.inr (by simp [fmt_tokens, h]))
        | jarr xs => exact Or.inr (Or.inr (by simp [fmt_tokens, h]))
        | jobj fs => exact Or.inr (Or.inr (by simp [fmt_tokens, h]))

/-- C10: the cost and duration formatters and the per-model cost total
accept numeric strings: a record storing total_cost_usd as the string 1.5
renders as dollar 1.5000 and contributes 1.5 to the model total, and a
string duration_ms 2500 renders as 2.5s. -/
theorem numeric_strings_accepted :
    fmt_cost (.jstr "1.5") = "$1.5000" ∧
    fmt_time (.jstr "2500") = "2.5s" ∧
    costContribution (.jobj [("total_cost_usd", .jstr "1.5")]) = 3/2 ∧
    totalCost (resolve [("01-a-m-with-mcp", .jobj [("total_cost_usd", .jstr "1.5")])])
      ["a"] "m" "with-mcp" = 3/2 := by
  have hc : costContribution (.jobj [("total_cost_usd", .jstr "1.5")]) = mkRat 15 10 := by
    decide
  have hc2 : (mkRat 15 10 : Rat) = 3/2 := by
    rw [Rat.mkRat_eq_div]; norm_num
  refine ⟨by decide, ?_, hc.trans hc2, ?_⟩
  · have h : pyFloat? (.jstr "2500") = some (mkRat 2500 1) := by decide
    simp only [fmt_time, h]
    rw [show (mkRat 2500 1 : Rat) / 1000 = mkRat 5 2 from by
      rw [Rat.mkRat_eq_div, Rat.mkRat_eq_div]; norm_num]
    decide
  · show (0 : Rat) + costContribution (.jobj [("total_cost_usd", .jstr "1.5")]) = 3/2
    rw [zero_add, hc, hc2]

/-- C1 counterexample: a record with no usage key renders as the string 0,
not as the claimed sentinel, because all four sub-counts default to 0 and
their sum formats as 0. -/
theorem fmt_tokens_no_usage_renders_zero :
    fmt_tokens (.jobj []) = "0" ∧ ("0" : String) ≠ "N/A" := by
  exact ⟨by decide, by decide⟩

/-- C1 (amended): the token-total formatter returns the sum of the four
usage sub-counts (each defaulting to 0 when absent) with thousands
separators; a record whose usage value is present but not a mapping, or a
record that is not itself a mapping, renders as the sentinel; a record with
no usage key renders as 0 (the formatted sum of the defaults), not as the
sentinel. In particular the example usage mapping renders as 175. -/
theorem fmt_tokens_usage_defaults :
    (∀ fs, lookupA "usage" fs = none → fmt_tokens (.jobj fs) = "0") ∧
    (∀ fs us a b c r,
      lookupA "usage" fs = some (.jobj us) →
      usageCount us "input_tokens" = .jint a →
      usageCount us "cache_read_input_tokens" = .jint b →
      usageCount us "cache_creation_input_tokens" = .jint c →
      usageCount us "output_tokens" = .jint r →
      fmt_tokens (.jobj fs) = fmtThousandsInt (a + b + c + r)) ∧
    (∀ fs u, lookupA "usage" fs = some u → isObj u = false → fmt_tokens (.jobj fs) = "N/A") ∧
    (∀ v : JVal, isObj v = false → fmt_tokens v = "N/A") ∧
    fmt_tokens (.jobj [("usage", .jobj [("input_tokens", .jint 100),
      ("cache_read_input_tokens", .jint 50), ("cache_creation_input_tokens", .jint 0),
      ("output_tokens", .jint 25)])]) = "175" ∧
    fmt_tokens (.jobj [("usage", .jobj [("input_tokens", .jint 1234567)])]) = "1,234,567" := by
  refine ⟨fun fs h => ?_, fun fs us a b c r h h1 h2 h3 h4 => ?_, fun fs u h hu => ?_,
    fun v hv => ?_, by decide, by decide⟩
  · simp only [fmt_tokens, tokensTotal?, h, Option.getD_none]
    decide
  · simp only [fmt_tokens, tokensTotal?, h, Option.getD_some, h1, h2, h3, h4, pyAdd,
      Option.bind_some, Option.some_bind]
  · cases u with
    | jobj us => simp [isObj] at hu
    | jnull => simp [fmt_tokens, tokensTotal?, h]
    | jbool b => simp [fmt_tokens, tokensTotal?, h]
    | jint n => simp [fmt_tokens, tokensTotal?, h]
    | jnum q => simp [fmt_tokens, tokensTotal?, h]
    | jstr s => simp [fmt_tokens, tokensTotal?, h]
    | jarr xs => simp [fmt_tokens, tokensTotal?, h]
  · cases v with
    | jobj fs => simp [isObj] at hv
    | jnull => rfl
    | jbool b => rfl
    | jint n => rfl
    | jnum q => rfl
    | jstr s => rfl
    | jarr xs => rfl

/-- C1 witness: the amended theorem applied at concrete records. -/
theorem fmt_tokens_usage_defaults_witness :
    fmt_tokens (.jobj []) = "0" ∧
    fmt_tokens (.jobj [("usage", .jobj [("input_tokens", .jint 2),
      ("cache_read_input_tokens", .jint 3), ("cache_creation_input_tokens", .jint 4),
      ("output_tokens", .jint 5)])]) = fmtThousandsInt (2 + 3 + 4 + 5) ∧
    fmt_tokens (.jobj [("usage", .jstr "bad")]) = "N/A" ∧
    fmt_tokens (.jstr "oops") = "N/A" :=
  ⟨fmt_tokens_usage_defaults.1 [] rfl,
   fmt_tokens_usage_defaults.2.1 _ _ 2 3 4 5 rfl rfl rfl rfl rfl,
   fmt_tokens_usage_defaults.2.2.1 [("usage", .jstr "bad")] (.jstr "bad") rfl rfl,
   fmt_tokens_usage_defaults.2.2.2.1 (.jstr "oops") rfl⟩

theorem foldl_add_eq_sum {α : Type} (f : α → Rat) (l : List α) (init : Rat) :
    l.foldl (fun a x => a + f x) init = init + (l.map f).sum := by
  induction l generalizing init with
  | nil => simp
  | cons x xs ih => simp [ih, add_assoc]

/-- C2: the per-model total cost reported in the summary equals the exact
sum over all prompts of the parsed total_cost_usd values, a prompt whose
record is missing or non-numeric contributing exactly 0; the line carrying
both totals is part of the rendered summary for every model. -/
theorem total_cost_exact_sum :
    (∀ (results : List (String × JVal)) (labels : List String) (model mode : String),
      totalCost (resolve results) labels model mode =
        (labels.enum.map fun p =>
          costContribution (resolve results (compKey p.1 p.2 model mode))).sum) ∧
    (∀ (results : List (String × JVal)) (key : String),
      lookupA key results = none → costContribution (resolve results key) = 0) ∧
    (∀ (results : List (String × JVal)) (runDirBase : String) (meta : Meta)
        (txts : List (String × String)) (model : String), model ∈ meta.models →
      totalLine (resolve results) meta.labels model ∈
        buildLines runDirBase meta (resolve results) txts) := by
  refine ⟨fun results labels model mode => ?_, fun results key h => ?_,
    fun results rd meta txts model hm => ?_⟩
  · unfold totalCost
    rw [foldl_add_eq_sum, zero_add]
  · simp only [resolve, h, Option.getD_none]
    decide
  · have hsec : totalLine (resolve results) meta.labels model ∈
        modelSection (resolve results) meta.labels model := by simp [modelSection]
    have h2 := List.mem_flatMap.mpr ⟨model, hm, hsec⟩
    simp only [buildLines, List.mem_append]
    tauto

/-- C2 witness: the exact-sum theorem applied at concrete inputs. -/
theorem total_cost_exact_sum_witness :
    costContribution (resolve [] "01-a-m-with-mcp") = 0 ∧
    totalLine (resolve []) ["a"] "m" ∈
      buildLines "d" ⟨["m"], ["a"], .jstr "t"⟩ (resolve []) [] :=
  ⟨total_cost_exact_sum.2.1 [] "01-a-m-with-mcp" rfl,
   total_cost_exact_sum.2.2 [] "d" ⟨["m"], ["a"], .jstr "t"⟩ [] "m" (by decide)⟩

/-- C3 counterexample: an unparsable trial file is substituted by an empty
record, but its token-total field then renders as 0, not as the claimed
sentinel for every derived field. -/
theorem unparsable_record_renders_zero_tokens :
    loadResults [("01-a-m-with-mcp", none)] = [("01-a-m-with-mcp", .jobj [])] ∧
    tokensCell (.jobj []) = "0" ∧ ("0" : String) ≠ "N/A" :=
  ⟨rfl, by decide, by decide⟩

/-- C3 (amended): only the metadata load is fatal — prompts.json absent or
unparsable propagates the failure; an unparsable trial result file is
substituted by an empty record, for which the cost, time and turns fields
render as the sentinel while the token total renders as 0, and report
generation completes with one table row per prompt. -/
theorem only_metadata_fatal_amended :
    (∀ runDirBase (files : List (String × Option JVal)) txts,
      summarize runDirBase none files txts = none) ∧
    (∀ runDirBase (v : JVal) files txts, metaOfJson v = none →
      summarize runDirBase (some v) files txts = none) ∧
    (∀ runDirBase (pj : Option JVal) (meta : Meta) files txts,
      pj.bind metaOfJson = some meta →
      summarize runDirBase pj files txts =
        some (summaryContent runDirBase meta (loadResults files) txts)) ∧
    (∀ (files : List (String × Option JVal)) (name : String), normalizeName name ≠ "prompts" →
      (name, (none : Option JVal)) ∈ files →
      (normalizeName name, JVal.jobj []) ∈ loadResults files) ∧
    (costCell (.jobj []) = "N/A" ∧ timeCell (.jobj []) = "N/A" ∧
      turnsCell (.jobj []) = "N/A" ∧ tokensCell (.jobj []) = "0") ∧
    (∀ (res : String → JVal) (labels : List String) (model : String),
      (tableRows res labels model).length = labels.length) := by
  refine ⟨fun _ _ _ => rfl, fun rd v files txts h => ?_, fun rd pj meta files txts h => ?_,
    fun files name hne hmem => ?_, ⟨by decide, by decide, by decide, by decide⟩,
    fun res labels model => ?_⟩
  · simp [summarize, h]
  · simp [summarize, h]
  · simp only [loadResults]
    exact List.mem_filterMap.mpr ⟨(name, none), hmem, by simp [hne]⟩
  · simp [tableRows]

/-- C3 witness: the amended theorem applied at a concrete run directory. -/
theorem only_metadata_fatal_amended_witness :
    summarize "d" none [] [] = none ∧
    summarize "d" (some (.jstr "bad")) [] [] = none ∧
    summarize "d" (some (.jobj [("models", .jarr [.jstr "m"]),
        ("prompts", .jarr [.jobj [("label", .jstr "a")]]), ("target", .jstr "t")]))
        [("01-a-m-with-mcp", none)] [] =
      some (summaryContent "d" ⟨["m"], ["a"], .jstr "t"⟩
        (loadResults [("01-a-m-with-mcp", none)]) []) ∧
    ("01-a-m-with-mcp", JVal.jobj []) ∈ loadResults [("01-a-m-with-mcp", none)] :=
  ⟨only_metadata_fatal_amended.1 "d" [] [],
   only_metadata_fatal_amended.2.1 "d" (.jstr "bad") [] [] rfl,
   only_metadata_fatal_amended.2.2.1 "d" _ ⟨["m"], ["a"], .jstr "t"⟩ _ [] rfl,
   only_metadata_fatal_amended.2.2.2.1 _ "01-a-m-with-mcp" (by decide) (by simp)⟩

/-- C5 counterexample: for a key with no trial file the tokens cell of the
row shows 0, so not every cell shows the claimed sentinel. -/
theorem missing_record_row_counterexample :
    (rowCells [] "01-a-m-with-mcp").1 = "0" ∧ ("0" : String) ≠ "N/A" :=
  ⟨by decide, by decide⟩

/-- C5 (amended): for every (prompt, model, mode) whose trial result file is
missing, the corresponding row shows the sentinel in the cost, time and
turns cells and 0 in the tokens cell, while the report still generates
successfully with one row per prompt. -/
theorem missing_record_row_amended :
    (∀ (results : List (String × JVal)) (key : String), lookupA key results = none →
      rowCells results key = ("0", "N/A", "N/A", "N/A")) ∧
    (∀ (res : String → JVal) (labels : List String) (model : String),
      (tableRows res labels model).length = labels.length) ∧
    (∀ runDirBase (pj : Option JVal) (meta : Meta) files txts,
      pj.bind metaOfJson = some meta →
      ∃ s, summarize runDirBase pj files txts = some s) := by
  refine ⟨fun results key h => ?_, fun res labels model => by simp [tableRows],
    fun rd pj meta files txts h =>
      ⟨summaryContent rd meta (loadResults files) txts, by simp [summarize, h]⟩⟩
  simp only [rowCells, resolve, h, Option.getD_none]
  decide

/-- C5 witness: the amended theorem applied at a concrete missing key. -/
theorem missing_record_row_amended_witness :
    rowCells [] "02-b-m-without-mcp" = ("0", "N/A", "N/A", "N/A") ∧
    (tableRows (resolve []) ["a", "b"] "m").length = 2 ∧
    ∃ s, summarize "d" (some (.jobj [("models", .jarr [.jstr "m"]),
      ("prompts", .jarr [.jobj [("label", .jstr "a")]]), ("target", .jstr "t")])) [] []
      = some s :=
  ⟨missing_record_row_amended.1 [] "02-b-m-without-mcp" rfl,
   missing_record_row_amended.2.1 (resolve []) ["a", "b"] "m",
   missing_record_row_amended.2.2 "d" _ ⟨["m"], ["a"], .jstr "t"⟩ [] [] rfl⟩

theorem numQ?_of_numeric {v : JVal} (h : isNumericJ v = true) : numQ? v = some (numQ v) := by
  cases v <;> simp_all [isNumericJ, numQ?, numQ]

theorem pyAdd_numeric {a b : JVal} (ha : isNumericJ a = true) (hb : isNumericJ b = true) :
    ∃ c, pyAdd a b = some c ∧ isNumericJ c = true ∧ numQ c = numQ a + numQ b := by
  cases a with
  | jint m =>
      cases b with
      | jint n => exact ⟨_, rfl, rfl, by simp [numQ]⟩
      | jnum q => exact ⟨_, rfl, rfl, by simp [numQ]⟩
      | jnull => simp [isNumericJ] at hb
      | jbool c => simp [isNumericJ] at hb
      | jstr s => simp [isNumericJ] at hb
      | jarr xs => simp [isNumericJ] at hb
      | jobj fs => simp [isNumericJ] at hb
  | jnum p =>
      cases b with
      | jint n => exact ⟨_, rfl, rfl, by simp [numQ]⟩
      | jnum q => exact ⟨_, rfl, rfl, by simp [numQ]⟩
      | jnull => simp [isNumericJ] at hb
      | jbool c => simp [isNumericJ] at hb
      | jstr s => simp [isNumericJ] at hb
      | jarr xs => simp [isNumericJ] at hb
      | jobj fs => simp [isNumericJ] at hb
  | jnull => simp [isNumericJ] at ha
  | jbool c => simp [isNumericJ] at ha
  | jstr s => simp [isNumericJ] at ha
  | jarr xs => simp [isNumericJ] at ha
  | jobj fs => simp [isNumericJ] at ha

theorem pySumAux_numeric (vs : List JVal) (h : ∀ v ∈ vs, isNumericJ v = true) :
    ∀ a : JVal, isNumericJ a = true →
      ∃ s, vs.foldl (fun acc v => acc.bind fun x => pyAdd x v) (some a) = some s ∧
        isNumericJ s = true ∧ numQ s = numQ a + (vs.map numQ).sum := by
  induction vs with
  | nil => exact fun a ha => ⟨a, rfl, ha, by simp⟩
  | cons v vs ih =>
      intro a ha
      have hv : isNumericJ v = true := h v (by simp)
      obtain ⟨c, hc, hcn, hcq⟩ := pyAdd_numeric ha hv
      obtain ⟨s, hs, hsn, hsq⟩ := ih (fun w hw => h w (List.mem_cons_of_mem _ hw)) c hcn
      refine ⟨s, ?_, hsn, ?_⟩
      · simpa [hc] using hs
      · rw [hsq, hcq]
        simp [add_assoc]

theorem pyDiv_numeric {a : JVal} (ha : isNumericJ a = true) (n : Int)
    (h0 : ((n : Rat)) ≠ 0) : pyDiv a (.jint n) = some (.jnum (numQ a / (n : Rat))) := by
  cases a with
  | jint m => simp [pyDiv, numQ?, numQ, h0]
  | jnum q => simp [pyDiv, numQ?, numQ, h0]
  | jnull => simp [isNumericJ] at ha
  | jbool c => simp [isNumericJ] at ha
  | jstr s => simp [isNumericJ] at ha
  | jarr xs => simp [isNumericJ] at ha
  | jobj fs => simp [isNumericJ] at ha

theorem pySum_numeric (vs : List JVal) (h : ∀ v ∈ vs, isNumericJ v = true) :
    ∃ s, pySum vs = some s ∧ isNumericJ s = true ∧ numQ s = (vs.map numQ).sum := by
  obtain ⟨s, hs, hsn, hsq⟩ := pySumAux_numeric vs h (.jint 0) rfl
  refine ⟨s, hs, hsn, ?_⟩
  simpa [numQ] using hsq

/-- C4: for each of the four chart metrics, per model and per mode, the bar
height computed by safe_avg over the collected metric values equals the
arithmetic mean over exactly those prompts whose record yielded a value for
that metric (records whose extraction raises are excluded, not counted as
zero), and when no prompt yields a value the result is 0, with no failure. -/
theorem chart_bar_is_mean (res : String → JVal) (labels : List String) (model mode : String)
    (metric : Metric)
    (h : ∀ v ∈ metricValues res labels model mode metric, isNumericJ v = true) :
    safe_avg (metricValues res labels model mode metric) =
      some (if (metricValues res labels model mode metric).isEmpty then JVal.jint 0
        else JVal.jnum (((metricValues res labels model mode metric).map numQ).sum /
          ((metricValues res labels model mode metric).length : Rat))) := by
  revert h
  generalize metricValues res labels model mode metric = vs
  intro h
  cases vs with
  | nil => simp [safe_avg]
  | cons v vs =>
      obtain ⟨s, hs, hsn, hsq⟩ := pySum_numeric (v :: vs) h
      have hlen : (((v :: vs).length : Int) : Rat) ≠ 0 := by
        push_cast [List.length_cons]
        positivity
      have hdiv : pyDiv s (.jint ((v :: vs).length : Int)) =
          some (.jnum (numQ s / (((v :: vs).length : Int) : Rat))) :=
        pyDiv_numeric hsn _ hlen
      have hcast : (((v :: vs).length : Int) : Rat) = ((v :: vs).length : Rat) := by
        push_cast
        ring
      rw [show safe_avg (v :: vs) = (pySum (v :: vs)).bind
            (fun s => pyDiv s (.jint ((v :: vs).length : Int))) from rfl,
        hs, Option.some_bind, hdiv, hsq, hcast]
      simp

/-- A concrete two-prompt run used to instantiate the chart-average theorem. -/
def sampleRun : List (String × JVal) :=
  [("01-a-m-with-mcp", .jobj [("total_cost_usd", .jint 10)]),
   ("02-b-m-with-mcp", .jobj [("total_cost_usd", .jint 20)])]

/-- C4 witness: the chart-average theorem at a concrete run where the cost
metric collects the values 10 and 20 for with-mcp and nothing for
without-mcp, whose bar is 0. -/
theorem chart_bar_is_mean_witness :
    (∀ v ∈ metricValues (resolve sampleRun) ["a", "b"] "m" "with-mcp" Metric.cost,
      isNumericJ v = true) ∧
    safe_avg (metricValues (resolve sampleRun) ["a", "b"] "m" "with-mcp" Metric.cost) =
      some (if (metricValues (resolve sampleRun) ["a", "b"] "m" "with-mcp" Metric.cost).isEmpty
        then JVal.jint 0
        else JVal.jnum
          (((metricValues (resolve sampleRun) ["a", "b"] "m" "with-mcp" Metric.cost).map
            numQ).sum /
          ((metricValues (resolve sampleRun) ["a", "b"] "m" "with-mcp" Metric.cost).length :
            Rat))) ∧
    safe_avg (metricValues (resolve sampleRun) ["a", "b"] "m" "without-mcp" Metric.cost) =
      some (JVal.jint 0) :=
  ⟨by decide,
   chart_bar_is_mean (resolve sampleRun) ["a", "b"] "m" "with-mcp" Metric.cost (by decide),
   (chart_bar_is_mean (resolve sampleRun) ["a", "b"] "m" "without-mcp" Metric.cost
     (by decide)).trans rfl⟩

theorem lookupA_perm {β : Type} {l₁ l₂ : List (String × β)} (h : l₁.Perm l₂) :
    (l₁.map Prod.fst).Nodup → ∀ k, lookupA k l₁ = lookupA k l₂ := by
  induction h with
  | nil => exact fun _ _ => rfl
  | cons x h ih =>
      intro hn k
      obtain ⟨k', v⟩ := x
      by_cases hk : k' = k
      · simp only [lookupA, if_pos hk]
      · simp only [lookupA, if_neg hk]
        exact ih (by simpa using (List.nodup_cons.mp (by simpa using hn)).2) k
  | swap x y l =>
      intro hn k
      obtain ⟨a, va⟩ := x
      obtain ⟨b, vb⟩ := y
      have hba : b ≠ a := by
        simp only [List.map_cons, List.nodup_cons, List.mem_cons, not_or] at hn
        exact hn.1.1
      by_cases hbk : b = k <;> by_cases hak : a = k
      · exact absurd (hbk.trans hak.symm) hba
      · simp [lookupA, hbk, hak]
      · simp [lookupA, hbk, hak]
      · simp [lookupA, hbk, hak]
  | trans h₁ h₂ ih₁ ih₂ =>
      intro hn k
      rw [ih₁ hn k, ih₂ (((h₁.map Prod.fst).nodup_iff).mp hn) k]

/-- C7: running the report builder twice over the same unchanged run
directory produces byte-identical summary content: the output is invariant
under the enumeration order of the result files (all ordering comes from the
metadata sequences), and no other run-dependent input exists. -/
theorem summary_deterministic (runDirBase : String) (meta : Meta)
    (rs₁ rs₂ : List (String × JVal)) (txts : List (String × String))
    (hp : rs₁.Perm rs₂) (hn : (rs₁.map Prod.fst).Nodup) :
    summaryContent runDirBase meta rs₁ txts = summaryContent runDirBase meta rs₂ txts := by
  have hres : resolve rs₁ = resolve rs₂ :=
    funext fun k => by simp [resolve, lookupA_perm hp hn k]
  simp [summaryContent, hres]

/-- C7 witness: the determinism theorem applied to two enumeration orders of
the same two result files. -/
theorem summary_deterministic_witness :
    summaryContent "d" ⟨["m"], ["a"], .jstr "t"⟩ [("x", .jint 1), ("y", .jint 2)] [] =
      summaryContent "d" ⟨["m"], ["a"], .jstr "t"⟩ [("y", .jint 2), ("x", .jint 1)] [] :=
  summary_deterministic "d" ⟨["m"], ["a"], .jstr "t"⟩ _ _ [] (List.Perm.swap _ _ _) (by decide)

theorem lookupA_append {β : Type} (k : String) (l₁ l₂ : List (String × β)) :
    lookupA k (l₁ ++ l₂) = (lookupA k l₁).or (lookupA k l₂) := by
  induction l₁ with
  | nil => rfl
  | cons x xs ih =>
      obtain ⟨k', v⟩ := x
      by_cases hk : k' = k
      · simp [lookupA, hk]
      · simp [lookupA, hk, ih]

theorem resolve_load_append (files : List (String × Option JVal)) (name : String)
    (content : Option JVal) (k : String) (hk : k ≠ normalizeName name) :
    resolve (loadResults (files ++ [(name, content)])) k = resolve (loadResults files) k := by
  have hnk : normalizeName name ≠ k := fun e => hk e.symm
  have hone : lookupA k (loadResults [(name, content)]) = none := by
    by_cases hp : normalizeName name = "prompts"
    · simp [loadResults, hp, lookupA]
    · simp [loadResults, hp, lookupA, hnk]
  simp only [resolve, loadResults, List.filterMap_append] at hone ⊢
  rw [lookupA_append, hone, Option.or_none]

theorem flatMapCongr {α β : Type} {l : List α} {f g : α → List β}
    (h : ∀ a ∈ l, f a = g a) : l.flatMap f = l.flatMap g := by
  induction l with
  | nil => rfl
  | cons x xs ih =>
      simp only [List.flatMap_cons, h x (by simp), ih fun a ha => h a (by simp [ha])]

theorem totalCost_congr (res₁ res₂ : String → JVal) (labels : List String) (model mode : String)
    (h : ∀ p ∈ labels.enum,
      res₁ (compKey p.1 p.2 model mode) = res₂ (compKey p.1 p.2 model mode)) :
    totalCost res₁ labels model mode = totalCost res₂ labels model mode := by
  unfold totalCost
  rw [foldl_add_eq_sum, foldl_add_eq_sum]
  exact congrArg (fun l => 0 + List.sum l)
    (List.map_congr_left fun p hp => by rw [h p hp])

theorem tableRows_congr (res₁ res₂ : String → JVal) (labels : List String) (model : String)
    (h : ∀ p ∈ labels.enum,
      res₁ (compKey p.1 p.2 model "with-mcp") = res₂ (compKey p.1 p.2 model "with-mcp") ∧
      res₁ (compKey p.1 p.2 model "without-mcp") = res₂ (compKey p.1 p.2 model "without-mcp")) :
    tableRows res₁ labels model = tableRows res₂ labels model := by
  unfold tableRows
  exact List.map_congr_left fun p hp => by rw [(h p hp).1, (h p hp).2]

theorem modelSection_congr (res₁ res₂ : String → JVal) (labels : List String) (model : String)
    (h : ∀ p ∈ labels.enum,
      res₁ (compKey p.1 p.2 model "with-mcp") = res₂ (compKey p.1 p.2 model "with-mcp") ∧
      res₁ (compKey p.1 p.2 model "without-mcp") = res₂ (compKey p.1 p.2 model "without-mcp")) :
    modelSection res₁ labels model = modelSection res₂ labels model := by
  unfold modelSection totalLine
  rw [tableRows_congr res₁ res₂ labels model h,
    totalCost_congr res₁ res₂ labels model "with-mcp" fun p hp => (h p hp).1,
    totalCost_congr res₁ res₂ labels model "without-mcp" fun p hp => (h p hp).2]

theorem buildLines_congr (runDirBase : String) (meta : Meta) (res₁ res₂ : String → JVal)
    (txts : List (String × String)) (h : ∀ k ∈ compositeKeys meta, res₁ k = res₂ k) :
    buildLines runDirBase meta res₁ txts = buildLines runDirBase meta res₂ txts := by
  unfold buildLines
  have hmid : (meta.models.flatMap fun m => modelSection res₁ meta.labels m) =
      meta.models.flatMap fun m => modelSection res₂ meta.labels m := by
    refine flatMapCongr fun m hm => modelSection_congr res₁ res₂ meta.labels m ?_
    intro p hp
    constructor
    · exact h _ (List.mem_flatMap.mpr ⟨m, hm, List.mem_flatMap.mpr ⟨p, hp, by simp⟩⟩)
    · exact h _ (List.mem_flatMap.mpr ⟨m, hm, List.mem_flatMap.mpr ⟨p, hp, by simp⟩⟩)
  rw [hmid]

/-- C9 counterexample: the loader removes every occurrence of .json from a
file name (line 22), so the file 01-a-m-with-mcp.json.json — whose base name
01-a-m-with-mcp.json is not a composite key (nor prompts) — is stored under
the composite key 01-a-m-with-mcp, and adding it changes the summary
content. -/
theorem untracked_file_changes_summary :
    normalizeName "01-a-m-with-mcp.json.json" = "01-a-m-with-mcp" ∧
    "01-a-m-with-mcp.json" ∉ compositeKeys ⟨["m"], ["a"], .jstr "t"⟩ ∧
    "01-a-m-with-mcp.json" ≠ "prompts" ∧
    rowCells (loadResults [("01-a-m-with-mcp.json.json", some (.jobj [("num_turns", .jint 7)]))])
        "01-a-m-with-mcp" ≠ rowCells (loadResults []) "01-a-m-with-mcp" ∧
    buildLines "d" ⟨["m"], ["a"], .jstr "t"⟩
        (resolve (loadResults
          [("01-a-m-with-mcp.json.json", some (.jobj [("num_turns", .jint 7)]))])) [] ≠
      buildLines "d" ⟨["m"], ["a"], .jstr "t"⟩ (resolve (loadResults [])) [] :=
  ⟨by decide, by decide, by decide, by decide, by decide⟩

/-- C9 (amended): adding to the run directory a .json file whose name, after
the loader removes every occurrence of the substring .json from it, is
neither prompts nor one of the composite keys derivable from the metadata,
leaves the generated summary.md content unchanged: results are read only
through the constructed composite keys. -/
theorem untracked_file_ignored (runDirBase : String) (meta : Meta)
    (files : List (String × Option JVal)) (txts : List (String × String))
    (name : String) (content : Option JVal)
    (_hnp : normalizeName name ≠ "prompts") (hnk : normalizeName name ∉ compositeKeys meta) :
    summaryContent runDirBase meta (loadResults (files ++ [(name, content)])) txts =
      summaryContent runDirBase meta (loadResults files) txts := by
  unfold summaryContent
  apply congrArg
  apply buildLines_congr
  intro k hk
  exact resolve_load_append files name content k fun e => hnk (e ▸ hk)

/-- C9 witness: the amended theorem applied to a concrete directory gaining
an unrelated result file. -/
theorem untracked_file_ignored_witness :
    summaryContent "d" ⟨["m"], ["a"], .jstr "t"⟩
        (loadResults ([("01-a-m-with-mcp.json", some (.jint 1))] ++
          [("evil.json", some (.jint 2))])) [] =
      summaryContent "d" ⟨["m"], ["a"], .jstr "t"⟩
        (loadResults [("01-a-m-with-mcp.json", some (.jint 1))]) [] :=
  untracked_file_ignored "d" ⟨["m"], ["a"], .jstr "t"⟩
    [("01-a-m-with-mcp.json", some (.jint 1))] [] "evil.json" (some (.jint 2))
    (by decide) (by decide)

end Mycelium
